import Mathlib

/-!
Shallow embedding of the two stateful subsystems of `ska-src-clients`:
the resumable operation plan executor (`ska_src_clients/plan/step.py`,
`ska_src_clients/plan/plan.py`) and the OIDC token lifecycle manager
(`ska_src_clients/session/oidc.py`, `ska_src_clients/common/utility.py`).

Conventions of the embedding:
* Python exceptions are modelled with `Except`; the error value carries the
  state as mutated up to the raise (Python objects keep their in-place
  mutations when an exception propagates).
* `exit()` after a recovery dump is modelled by a terminal result
  constructor.
* Wall-clock time (`time.time()`) is an explicit `now : Int` parameter.
-/

/-! ## Plan / Step (plan/step.py, plan/plan.py) -/

/-- The callable reference of a step as (de)serialized by `Plan.save` /
`Plan.load`: the function name, its defining module, and — for a bound
method — the name of the class an instance of which it is bound to
(`function_class_name = none` models the unbound case, serialized as
JSON `null`).  Module import and `getattr` resolution performed by
`Plan.load` are modelled as the identity on this data. -/
structure Fqn where
  function_name : String
  function_module_name : String
  function_class_name : Option String
deriving DecidableEq, Repr

/-- One step of a plan (`step.py`).  Arguments (a Python `dict`) are
modelled as an association list of opaque values. -/
structure Step where
  section_name : String
  fqn : Fqn
  arguments : List (String × String)
  is_done : Bool
deriving DecidableEq, Repr

/-- A plan: the ordered steps and the cursor `_current_step_number`. -/
structure Plan where
  current_step_number : Nat
  steps : List Step
deriving DecidableEq, Repr

/-- The serialized form of one step as written by `Plan.save`. -/
structure StepRecord where
  section_name : String
  function_name : String
  function_class_name : Option String
  function_module_name : String
  arguments : List (String × String)
  is_done : Bool
deriving DecidableEq, Repr

/-- The JSON document written by `Plan.save`: the cursor and the step
records. -/
structure PlanFile where
  current_step_number : Nat
  steps : List StepRecord
deriving DecidableEq, Repr

/-- `Plan.save`, per-step part: bound methods store the class name, plain
functions store `function_class_name = None`. -/
def Step.toRecord (st : Step) : StepRecord :=
  { section_name := st.section_name
    function_name := st.fqn.function_name
    function_class_name := st.fqn.function_class_name
    function_module_name := st.fqn.function_module_name
    arguments := st.arguments
    is_done := st.is_done }

/-- `Plan.save(path)`: the document written to `path`. -/
def Plan.save (p : Plan) : PlanFile :=
  { current_step_number := p.current_step_number
    steps := p.steps.map Step.toRecord }

/-- `Plan.load`, per-step part: `import_module` plus `getattr` resolution
reconstructs the callable from module / class / function names. -/
def StepRecord.toStep (r : StepRecord) : Step :=
  { section_name := r.section_name
    fqn :=
      { function_name := r.function_name
        function_module_name := r.function_module_name
        function_class_name := r.function_class_name }
    arguments := r.arguments
    is_done := r.is_done }

/-- `Plan.load(path)`: rebuilds the plan, restoring the cursor and
appending every step record in order. -/
def Plan.load (f : PlanFile) : Plan :=
  { current_step_number := f.current_step_number
    steps := f.steps.map StepRecord.toStep }

/-- `Plan.clear()`: drops all steps and resets the cursor to `0`. -/
def Plan.clear (_p : Plan) : Plan :=
  { current_step_number := 0, steps := [] }

/-- The `for idx, step in enumerate(self.steps[self.current_step_number:])`
search of `Plan.run_next_step`: offset of the first step with the given
section name, `none` when no step matches. -/
def findSectionOffset (s : String) : List Step → Option Nat
  | [] => none
  | st :: rest =>
      if st.section_name == s then some 0
      else (findSectionOffset s rest).map (· + 1)

/-- The forward section scan at the top of `Plan.run_next_step`: when a
(non-empty) section name is given, advance the cursor by the offset of the
first step at or after the cursor tagged with that section (cursor
unchanged when none matches); Python's `if section_name:` treats both
`None` and the empty string as absent. -/
def Plan.sectionScan (p : Plan) (s? : Option String) : Nat :=
  match s? with
  | none => p.current_step_number
  | some s =>
      if s = "" then p.current_step_number
      else
        match findSectionOffset s (p.steps.drop p.current_step_number) with
        | some idx => p.current_step_number + idx
        | none => p.current_step_number

/-- `Plan.run_next_step`.  `exec` is the oracle saying whether invoking a
callable with given arguments returns normally (`some ()`) or raises
(`none`; this also covers `KeyboardInterrupt`).  The error value is the
plan state at the raise: the section scan has already moved the cursor,
but `is_done` is not set and the cursor is not advanced past the failing
step.  An out-of-range cursor models the `IndexError` of
`self.steps[self.current_step_number]`. -/
def Plan.run_next_step (exec : Fqn → List (String × String) → Option Unit)
    (s? : Option String) (dry_run : Bool) (p : Plan) : Except Plan Plan :=
  let c := p.sectionScan s?
  let p1 : Plan := { p with current_step_number := c }
  match p1.steps[c]? with
  | none => .error p1
  | some st =>
      if dry_run || (exec st.fqn st.arguments).isSome then
        .ok { p1 with
                steps := p1.steps.set c { st with is_done := true }
                current_step_number := c + 1 }
      else .error p1

/-- Result of `Plan.run`: normal return at end of plan, or the recovery
dump (`save("plan-dump.json")` followed by `exit()`) carrying the plan
state that was serialized.  `outOfFuel` is an artefact of the fuelled
loop and is proved unreachable below. -/
inductive RunResult
  | finished (p : Plan)
  | dumped (p : Plan)
  | outOfFuel (p : Plan)
deriving DecidableEq, Repr

/-- The plan state carried by a `RunResult`. -/
def RunResult.plan : RunResult → Plan
  | .finished p => p
  | .dumped p => p
  | .outOfFuel p => p

/-- The `while True` loop of `Plan.run`, fuelled.  Each iteration runs
`run_next_step`; an exception (including `KeyboardInterrupt`) dumps the
plan to `plan-dump.json` and exits; otherwise the loop returns once the
cursor passes `max_step_number = number_of_steps - 1` (Python integer
arithmetic, hence the `Int` comparison). -/
def Plan.runAux (exec : Fqn → List (String × String) → Option Unit)
    (s? : Option String) (dry_run : Bool) : Nat → Plan → RunResult
  | 0, p => .outOfFuel p
  | Nat.succ fuel, p =>
      match Plan.run_next_step exec s? dry_run p with
      | .error q => .dumped q
      | .ok p' =>
          if (p'.current_step_number : Int) > (p'.steps.length : Int) - 1 then
            .finished p'
          else Plan.runAux exec s? dry_run fuel p'

/-- `Plan.run`: the loop with enough fuel (`number_of_steps + 1` bounds
the iteration count, as proved by `runAux_ne_outOfFuel`). -/
def Plan.run (exec : Fqn → List (String × String) → Option Unit)
    (s? : Option String) (dry_run : Bool) (p : Plan) : RunResult :=
  Plan.runAux exec s? dry_run (p.steps.length + 1) p

/-! ## Plan: supporting lemmas -/

/-- A found section offset points at a step tagged with that section. -/
theorem findSectionOffset_spec (s : String) :
    ∀ (l : List Step) (i : Nat), findSectionOffset s l = some i →
      ∃ st, l[i]? = some st ∧ st.section_name = s := by
  intro l
  induction l with
  | nil => intro i h; simp [findSectionOffset] at h
  | cons st rest ih =>
      intro i h
      rw [findSectionOffset] at h
      by_cases hs : st.section_name == s
      · rw [if_pos hs] at h
        cases h
        exact ⟨st, by simp, by simpa using hs⟩
      · rw [if_neg hs] at h
        cases hrec : findSectionOffset s rest with
        | none => rw [hrec] at h; cases h
        | some j =>
            rw [hrec] at h
            cases h
            obtain ⟨st', h1, h2⟩ := ih j hrec
            exact ⟨st', by simpa using h1, h2⟩

/-- The section scan never moves the cursor backwards. -/
theorem Plan.sectionScan_ge (p : Plan) (s? : Option String) :
    p.current_step_number ≤ p.sectionScan s? := by
  unfold Plan.sectionScan
  cases s? with
  | none => exact Nat.le_refl _
  | some s =>
      by_cases hs : s = ""
      · simp [hs]
      · simp only [hs, if_false]
        cases h : findSectionOffset s (p.steps.drop p.current_step_number) with
        | none => exact Nat.le_refl _
        | some idx => exact Nat.le_add_right _ _

/-- Shape of a successful `run_next_step`: the cursor lands one past the
scanned position, the scanned position is in range, and the number of
steps is unchanged. -/
theorem Plan.run_next_step_ok_spec
    (exec : Fqn → List (String × String) → Option Unit)
    (s? : Option String) (dry : Bool) (p q : Plan)
    (h : Plan.run_next_step exec s? dry p = .ok q) :
    q.current_step_number = p.sectionScan s? + 1 ∧
      p.sectionScan s? < p.steps.length ∧
      q.steps.length = p.steps.length := by
  rw [Plan.run_next_step] at h
  cases hg : p.steps[p.sectionScan s?]? with
  | none => simp [hg] at h
  | some st =>
      simp only [hg] at h
      split at h
      · cases h
        refine ⟨rfl, ?_, by simp⟩
        exact (List.getElem?_eq_some_iff.mp hg).1
      · cases h

/-- Shape of a failing `run_next_step`: the error state is the input plan
with only the section scan applied to the cursor. -/
theorem Plan.run_next_step_error_spec
    (exec : Fqn → List (String × String) → Option Unit)
    (s? : Option String) (dry : Bool) (p q : Plan)
    (h : Plan.run_next_step exec s? dry p = .error q) :
    q.current_step_number = p.sectionScan s? ∧ q.steps = p.steps := by
  rw [Plan.run_next_step] at h
  cases hg : p.steps[p.sectionScan s?]? with
  | none => simp only [hg] at h; cases h; exact ⟨rfl, rfl⟩
  | some st =>
      simp only [hg] at h
      split at h
      · cases h
      · cases h; exact ⟨rfl, rfl⟩

/-- The fuel `number_of_steps + 1` used by `Plan.run` is enough: the loop
never exhausts it. -/
theorem Plan.runAux_adequate
    (exec : Fqn → List (String × String) → Option Unit)
    (s? : Option String) (dry : Bool) :
    ∀ (fuel : Nat) (p : Plan),
      p.steps.length - p.current_step_number < fuel →
      ∀ q, Plan.runAux exec s? dry fuel p ≠ .outOfFuel q := by
  intro fuel
  induction fuel with
  | zero => intro p h q; omega
  | succ n ih =>
      intro p h q
      cases hstep : Plan.run_next_step exec s? dry p with
      | error e => simp [Plan.runAux, hstep]
      | ok p' =>
          simp only [Plan.runAux, hstep]
          split
          · simp
          · obtain ⟨h1, h2, h3⟩ :=
              Plan.run_next_step_ok_spec exec s? dry p p' hstep
            have h4 := Plan.sectionScan_ge p s?
            have hlt : p'.steps.length - p'.current_step_number < n := by
              omega
            exact ih p' hlt q

/-- `Plan.run` never returns the fuel-exhaustion artefact. -/
theorem Plan.run_ne_outOfFuel
    (exec : Fqn → List (String × String) → Option Unit)
    (s? : Option String) (dry : Bool) (p q : Plan) :
    Plan.run exec s? dry p ≠ .outOfFuel q :=
  Plan.runAux_adequate exec s? dry (p.steps.length + 1) p (by omega) q

/-- The run loop never decreases the cursor. -/
theorem Plan.runAux_cursor_mono
    (exec : Fqn → List (String × String) → Option Unit)
    (s? : Option String) (dry : Bool) :
    ∀ (fuel : Nat) (p : Plan),
      p.current_step_number ≤
        ((Plan.runAux exec s? dry fuel p).plan).current_step_number := by
  intro fuel
  induction fuel with
  | zero => intro p; simp [Plan.runAux, RunResult.plan]
  | succ n ih =>
      intro p
      cases hstep : Plan.run_next_step exec s? dry p with
      | error e =>
          obtain ⟨h1, _⟩ :=
            Plan.run_next_step_error_spec exec s? dry p e hstep
          have h2 := Plan.sectionScan_ge p s?
          simp only [Plan.runAux, hstep, RunResult.plan]
          omega
      | ok p' =>
          obtain ⟨h1, h2, h3⟩ :=
            Plan.run_next_step_ok_spec exec s? dry p p' hstep
          have h4 := Plan.sectionScan_ge p s?
          simp only [Plan.runAux, hstep]
          split
          · simp only [RunResult.plan]; omega
          · have h5 : p.current_step_number ≤ p'.current_step_number := by
              omega
            exact le_trans h5 (ih p')

/-! ## Plan: concrete fixtures -/

/-- A plain-function step callable named `op<i>` in module `ops`. -/
def opFqn (i : Nat) : Fqn :=
  { function_name := "op" ++ toString i
    function_module_name := "ops"
    function_class_name := none }

/-- A fresh (not done) step of the `main` section invoking `op<i>`. -/
def mkStep (i : Nat) : Step :=
  { section_name := "main", fqn := opFqn i, arguments := [], is_done := false }

/-- A five-step plan with cursor 0. -/
def planFive : Plan :=
  { current_step_number := 0
    steps := [mkStep 0, mkStep 1, mkStep 2, mkStep 3, mkStep 4] }

/-- Execution oracle under which every step succeeds except `op3`, which
raises. -/
def execFailsAt3 : Fqn → List (String × String) → Option Unit :=
  fun f _ => if f.function_name == "op3" then none else some ()

/-- The recovery state claimed for `planFive` under `execFailsAt3`:
steps 0-2 done, steps 3-4 not done, cursor 3. -/
def planFiveDump : Plan :=
  { current_step_number := 3
    steps := [{ mkStep 0 with is_done := true },
              { mkStep 1 with is_done := true },
              { mkStep 2 with is_done := true },
              mkStep 3, mkStep 4] }

/-- An oracle under which every step succeeds. -/
def execAllOk : Fqn → List (String × String) → Option Unit :=
  fun _ _ => some ()

/-- The empty plan: no steps, cursor 0. -/
def planEmpty : Plan := { current_step_number := 0, steps := [] }

/-! ## Plan: claims C1, C2, C9, C10 -/

/-- Claim C1: for every Plan with N steps and cursor C, saving it with
`save(path)` and then loading it with `load(path)` yields a Plan with the
same N steps — each step with the same `section_name`, operation
reference, arguments and `is_done` flag — and the same cursor:
`load(save(plan))` is structurally equal to `plan`. -/
theorem plan_save_load_round_trip (p : Plan) : Plan.load (Plan.save p) = p := by
  cases p with
  | mk c steps =>
      simp only [Plan.load, Plan.save, List.map_map, Plan.mk.injEq, true_and]
      have h : StepRecord.toStep ∘ Step.toRecord = id := by
        funext st; rfl
      rw [h, List.map_id]

/-- Witness for C1 at the concrete five-step plan. -/
theorem plan_save_load_round_trip_witness :
    Plan.load (Plan.save planFive) = planFive :=
  plan_save_load_round_trip planFive

/-- Claim C2: if during `run()` the step at the current cursor raises (or
an interrupt is received), the full Plan — all steps with their current
`is_done` flags and the cursor — is serialized to the fixed recovery file
and execution terminates without retrying the failing step; in
particular, for the five-step plan whose step at index 3 raises, the
recovery file holds steps 0-2 marked done, steps 3-4 not done, and
cursor 3. -/
theorem plan_failure_dump :
    (∀ (exec : Fqn → List (String × String) → Option Unit)
        (s? : Option String) (dry : Bool) (p q : Plan),
        Plan.run_next_step exec s? dry p = .error q →
        Plan.run exec s? dry p = .dumped q)
    ∧ Plan.run execFailsAt3 none false planFive = .dumped planFiveDump := by
  constructor
  · intro exec s? dry p q h
    simp [Plan.run, Plan.runAux, h]
  · rfl

/-- Witness for C2: the general dump rule applied at the concrete plan
whose step at the cursor raises. -/
theorem plan_failure_dump_witness :
    Plan.run execFailsAt3 none false planFiveDump = .dumped planFiveDump :=
  plan_failure_dump.1 execFailsAt3 none false planFiveDump planFiveDump rfl

/-- Claim C9: across `run` / `run_next_step`, the cursor is monotonically
non-decreasing — successful step execution advances it to one past the
scanned position, a failing step leaves it at the scanned position, the
section scan never moves it backward and, when it does move it, the
target step is tagged with the requested section — and it is reset to 0
by `clear()`. -/
theorem plan_cursor_monotone
    (exec : Fqn → List (String × String) → Option Unit)
    (s? : Option String) (dry : Bool) (p : Plan) :
    (∀ q, Plan.run_next_step exec s? dry p = .ok q →
        q.current_step_number = p.sectionScan s? + 1)
    ∧ (∀ q, Plan.run_next_step exec s? dry p = .error q →
        q.current_step_number = p.sectionScan s?)
    ∧ p.current_step_number ≤ p.sectionScan s?
    ∧ p.current_step_number ≤
        ((Plan.run exec s? dry p).plan).current_step_number
    ∧ (∀ s : String, p.sectionScan (some s) ≠ p.current_step_number →
        ∃ st, p.steps[p.sectionScan (some s)]? = some st ∧
          st.section_name = s)
    ∧ (Plan.clear p).current_step_number = 0 := by
  refine ⟨?_, ?_, Plan.sectionScan_ge p s?, Plan.runAux_cursor_mono exec s? dry _ p, ?_, rfl⟩
  · intro q h
    exact (Plan.run_next_step_ok_spec exec s? dry p q h).1
  · intro q h
    exact (Plan.run_next_step_error_spec exec s? dry p q h).1
  · intro s hmoved
    by_cases hs : s = ""
    · simp [Plan.sectionScan, hs] at hmoved
    · cases hfind :
          findSectionOffset s (p.steps.drop p.current_step_number) with
      | none =>
          exfalso
          apply hmoved
          simp [Plan.sectionScan, hs, hfind]
      | some idx =>
          have hscan : p.sectionScan (some s) = p.current_step_number + idx := by
            simp [Plan.sectionScan, hs, hfind]
          rw [hscan]
          obtain ⟨st, hget, hsec⟩ :=
            findSectionOffset_spec s (p.steps.drop p.current_step_number)
              idx hfind
          refine ⟨st, ?_, hsec⟩
          rw [List.getElem?_drop] at hget
          exact hget

/-- Witness for C9: the run-loop monotonicity conjunct at the concrete
five-step plan. -/
theorem plan_cursor_monotone_witness :
    planFive.current_step_number ≤
      ((Plan.run execFailsAt3 none false planFive).plan).current_step_number :=
  (plan_cursor_monotone execFailsAt3 none false planFive).2.2.2.1

/-- Claim C10: when no step remains at the cursor (in particular for the
empty plan), `run()` does not return normally: the out-of-range lookup
raises, the handler serializes the plan to the fixed recovery file, and
the process terminates — modelled by the `dumped` result carrying the
unchanged plan. -/
theorem plan_run_past_end_dumps
    (exec : Fqn → List (String × String) → Option Unit)
    (s? : Option String) (dry : Bool) (p : Plan)
    (h : p.steps.length ≤ p.current_step_number) :
    Plan.run exec s? dry p = .dumped p := by
  have hdrop : p.steps.drop p.current_step_number = [] :=
    List.drop_eq_nil_of_le h
  have hscan : p.sectionScan s? = p.current_step_number := by
    unfold Plan.sectionScan
    cases s? with
    | none => rfl
    | some s =>
        by_cases hs : s = ""
        · simp [hs]
        · simp [hs, hdrop, findSectionOffset]
  have hget : p.steps[p.current_step_number]? = none := by
    rw [List.getElem?_eq_none]
    exact h
  have hstep : Plan.run_next_step exec s? dry p = .error p := by
    rw [Plan.run_next_step]
    rw [hscan]
    simp [hget]
  simp [Plan.run, Plan.runAux, hstep]

/-- Witness for C10 at the empty plan. -/
theorem plan_run_past_end_dumps_witness :
    Plan.run execAllOk none false planEmpty = .dumped planEmpty :=
  plan_run_past_end_dumps execAllOk none false planEmpty (by decide)

/-! ## Token lifecycle manager (session/oidc.py, common/utility.py)

The JWT payloads that the session reads via
`jwt.decode(..., options={"verify_signature": False})` are modelled by the
claims the code actually uses: the `aud` claim (checked for presence) and
the `exp` claim.  Tokens handled by these operations carry an `exp` claim
(epoch seconds, modelled as `Int`). -/

/-- The claims of a decoded token: `aud` (optional) and `exp`. -/
structure TokenClaims where
  aud : Option String
  exp : Int
deriving DecidableEq, Repr

/-- An encoded token string together with the result of `jwt.decode` on
it; `claims = none` models a string `jwt.decode` raises on. -/
structure RawJwt where
  value : String
  claims : Option TokenClaims
deriving DecidableEq, Repr

/-- A token bundle as returned by the authentication service and stored in
a `*.token` file: the `access_token` and optional `refresh_token` keys. -/
structure RawBundle where
  access_token : Option RawJwt
  refresh_token : Option RawJwt
deriving DecidableEq, Repr

/-- A file of the stored-token directory; `json = none` models content
that makes `json.loads` raise `JSONDecodeError`. -/
structure TokenFile where
  path : String
  json : Option RawBundle
deriving DecidableEq, Repr

/-- A value of the `access_tokens` dict: the token string, its expiry and
the backing file path (`"INTERNAL"` when memory-only). -/
structure AccessEntry where
  token : String
  expires_at : Int
  path_on_disk : String
deriving DecidableEq, Repr

/-- An element of the `refresh_tokens` list, keeping the association with
the access token it was issued alongside. -/
structure RefreshEntry where
  token : String
  associated_access_token : String
  expires_at : Int
  path_on_disk : String
deriving DecidableEq, Repr

/-- The mutable state of an `OIDCSession`: the in-memory access-token
dict (insertion-ordered, keyed by audience), the in-memory refresh-token
list, and the files of `stored_token_directory`. -/
structure OIDCState where
  access_tokens : List (String × AccessEntry)
  refresh_tokens : List RefreshEntry
  disk : List TokenFile
deriving DecidableEq, Repr

/-- Python dict assignment `d[k] = v`: replace in place when the key
exists, else append. -/
def dictInsert (l : List (String × AccessEntry)) (k : String)
    (v : AccessEntry) : List (String × AccessEntry) :=
  if l.any (fun p => p.1 == k) then
    l.map (fun p => if p.1 == k then (k, v) else p)
  else l ++ [(k, v)]

/-- `OIDCSession._add_tokens_to_internal_cache`.  Decodes the access
token (raising when absent or undecodable), caches it under its `aud`
claim when one is present, then — when a refresh token is in the bundle —
decodes it (raising when undecodable, with the access entry already
cached) and appends the refresh entry.  The error value carries the state
as mutated up to the raise. -/
def addTokensToInternalCache (s : OIDCState) (b : RawBundle)
    (path_on_disk : Option String) : Except OIDCState OIDCState :=
  match b.access_token with
  | none => .error s
  | some a =>
      match a.claims with
      | none => .error s
      | some ac =>
          let newAccess : AccessEntry :=
            { token := a.value
              expires_at := ac.exp
              path_on_disk := path_on_disk.getD "INTERNAL" }
          let s1 :=
            match ac.aud with
            | some aud =>
                { s with access_tokens :=
                    dictInsert s.access_tokens aud newAccess }
            | none => s
          match b.refresh_token with
          | none => .ok s1
          | some r =>
              match r.claims with
              | none => .error s1
              | some rc =>
                  let newRefresh : RefreshEntry :=
                    { token := r.value
                      associated_access_token := a.value
                      expires_at := rc.exp
                      path_on_disk := path_on_disk.getD "INTERNAL" }
                  .ok { s1 with refresh_tokens :=
                          s1.refresh_tokens ++ [newRefresh] }

/-- `OIDCSession._save_tokens_to_disk`: writes the bundle to a fresh
uuid-named file in the stored-token directory; the fresh name is an
explicit parameter. -/
def saveTokensToDisk (s : OIDCState) (b : RawBundle)
    (fresh_path : String) : OIDCState :=
  { s with disk := s.disk ++ [{ path := fresh_path, json := some b }] }

/-- `os.remove`: deletes the file at `path`, raising `FileNotFoundError`
when no such file exists. -/
def osRemove (s : OIDCState) (path : String) : Except Unit OIDCState :=
  if s.disk.any (fun f => f.path == path) then
    .ok { s with disk := s.disk.filter (fun f => f.path != path) }
  else .error ()

/-- The loop body of `OIDCSession.load_tokens_from_disk` over the globbed
file list: a file whose contents fail `json.loads` is deleted and
skipped; any other exception (a failing `jwt.decode` inside
`_add_tokens_to_internal_cache`) propagates, leaving the file in place. -/
def loadFilesAux : List TokenFile → OIDCState → Except OIDCState OIDCState
  | [], s => .ok s
  | f :: rest, s =>
      match f.json with
      | none =>
          loadFilesAux rest
            { s with disk := s.disk.filter (fun g => g.path != f.path) }
      | some b =>
          match addTokensToInternalCache s b (some f.path) with
          | .error s' => .error s'
          | .ok s' => loadFilesAux rest s'

/-- `OIDCSession.load_tokens_from_disk`: scan the stored-token directory
and populate the internal cache. -/
def loadTokensFromDisk (s : OIDCState) : Except OIDCState OIDCState :=
  loadFilesAux s.disk s

/-- Second half of the sweep's per-file check: compute
`access_token_has_expired` (`False` when the file has no access token,
raising when it has an undecodable one) and combine it with the
already-computed refresh flag via `all([...])`. -/
def sweepFileDeleteAccess (now : Int) (b : RawBundle)
    (refresh_token_has_expired : Bool) : Except Unit Bool :=
  match b.access_token with
  | none => .ok (refresh_token_has_expired && false)
  | some a =>
      match a.claims with
      | none => .error ()
      | some c =>
          .ok (refresh_token_has_expired && decide (c.exp < now))

/-- The per-file check of the `remove_expired_tokens` sweep
(`utility.py`): the file is deleted exactly when
`refresh_token_has_expired` AND `access_token_has_expired` are both set;
a missing token leaves its flag `False`.  Raises when the file fails
`json.loads` or a contained token fails `jwt.decode` (the refresh token
is checked first, as in the source). -/
def sweepFileDelete (now : Int) (f : TokenFile) : Except Unit Bool :=
  match f.json with
  | none => .error ()
  | some b =>
      match b.refresh_token with
      | none => sweepFileDeleteAccess now b false
      | some r =>
          match r.claims with
          | none => .error ()
          | some c => sweepFileDeleteAccess now b (decide (c.exp < now))

/-- The in-memory half of the `remove_expired_tokens` sweep: keep exactly
the access and refresh entries with `expires_at >= time.time()`. -/
def sweepMemory (now : Int) (s : OIDCState) : OIDCState :=
  { s with
    access_tokens :=
      s.access_tokens.filter (fun p => decide (now ≤ p.2.expires_at))
    refresh_tokens :=
      s.refresh_tokens.filter (fun e => decide (now ≤ e.expires_at)) }

/-- The on-disk half of the sweep, iterating over the globbed file list;
an exception propagates with the deletions performed so far. -/
def sweepDiskAux (now : Int) :
    List TokenFile → OIDCState → Except OIDCState OIDCState
  | [], s => .ok s
  | f :: rest, s =>
      match sweepFileDelete now f with
      | .error _ => .error s
      | .ok true =>
          sweepDiskAux now rest
            { s with disk := s.disk.filter (fun g => g.path != f.path) }
      | .ok false => sweepDiskAux now rest s

/-- The `remove_expired_tokens` decorator body: sweep memory, then the
stored-token directory. -/
def sweep (now : Int) (s : OIDCState) : Except OIDCState OIDCState :=
  sweepDiskAux now (sweepMemory now s).disk (sweepMemory now s)

/-! ## Authentication collaborator and token exchange (session/oidc.py) -/

/-- A call made to the authentication API client.  The exchange endpoint
receives the service name, an optional explicit version, and the refresh
/ access token strings the code passes (`none` models passing Python
`None` or omitting the argument, as the direct-exchange branch does for
`version` and `refresh_token`). -/
inductive CollabCall
  | exchangeTokenCall (service : String) (version : Option String)
      (refresh_token : Option String) (access_token : Option String)
  | refreshTokenCall (refresh_token : String)
deriving DecidableEq, Repr

/-- The external authentication client: for each request, either the
successful JSON body (after `raise_for_status`) or an HTTP error.  The
liveness `ping()` of `check_authentication_api_aliveness` is assumed
alive throughout. -/
structure AuthnClient where
  exchangeResponse : String → Option String → Option String →
    Option String → Except Unit RawBundle
  refreshResponse : String → Except Unit RawBundle

/-- The `logging.critical` failure notices of `exchange_token`: no valid
refresh token for a by-refresh exchange, no valid access token for a
direct exchange (the code's `NoRefreshTokenAvailable` /
`NoAccessTokenAvailable` failure kinds). -/
inductive FailureNotice
  | noValidRefreshTokens
  | noValidAccessTokens
deriving DecidableEq, Repr

/-- Result of a normal (non-raising) return from `exchange_token`: the
returned success flag, the final session state, the collaborator calls
made, and the failure notice logged, if any. -/
structure ExchangeOutcome where
  result : Bool
  state : OIDCState
  calls : List CollabCall
  notice : Option FailureNotice
deriving DecidableEq, Repr

/-- The nested search of the by-refresh branch: the first
(refresh-token index, refresh entry, audience, access entry) combination
with `access_token["token"] == refresh_token["associated_access_token"]`,
iterating refresh tokens in list order and the access dict in insertion
order. -/
def findMatchingPair :
    List RefreshEntry → Nat → List (String × AccessEntry) →
      Option (Nat × RefreshEntry × String × AccessEntry)
  | [], _, _ => none
  | r :: rest, i, accs =>
      match accs.find? (fun p => p.2.token == r.associated_access_token) with
      | some (aud, a) => some (i, r, aud, a)
      | none => findMatchingPair rest (i + 1) accs

/-- The fallback loop of the by-refresh branch when no matching access
token exists: for each refresh token (absolute index `i` in the session's
list, which is unchanged while attempts fail), try the refresh endpoint;
a failure is logged and the loop continues; on success pop the consumed
refresh entry, delete its backing file, and exchange the freshly minted
pair.  Raises (`.error`) propagate the state and calls made so far. -/
def orphanRefreshLoop (client : AuthnClient) (service_name version : String) :
    List RefreshEntry → Nat → OIDCState → List CollabCall →
      Except (OIDCState × List CollabCall)
        (Option RawBundle × OIDCState × List CollabCall)
  | [], _, s, calls => .ok (none, s, calls)
  | r :: rest, i, s, calls =>
      let calls1 := calls ++ [CollabCall.refreshTokenCall r.token]
      match client.refreshResponse r.token with
      | .error _ =>
          orphanRefreshLoop client service_name version rest (i + 1) s calls1
      | .ok refreshed =>
          let s1 := { s with refresh_tokens := s.refresh_tokens.eraseIdx i }
          match osRemove s1 r.path_on_disk with
          | .error _ => .error (s1, calls1)
          | .ok s2 =>
              let rOpt := refreshed.refresh_token.map (fun j => j.value)
              let aOpt := refreshed.access_token.map (fun j => j.value)
              let call2 :=
                CollabCall.exchangeTokenCall service_name (some version)
                  rOpt aOpt
              match client.exchangeResponse service_name (some version)
                  rOpt aOpt with
              | .error _ => .error (s2, calls1 ++ [call2])
              | .ok b => .ok (some b, s2, calls1 ++ [call2])

/-- The branching body of `exchange_token` (after the expiry sweep, up to
the `if token:` tail): yields the freshly obtained bundle (or `none`),
the state, the collaborator calls, and any failure notice.  `choice`
selects the arbitrary access token of the direct branch
(`random.choice`). -/
def exchangeTokenBody (client : AuthnClient)
    (service_name version : String) (by_refresh : Bool) (choice : Nat)
    (s : OIDCState) :
    Except (OIDCState × List CollabCall)
      (Option RawBundle × OIDCState × List CollabCall ×
        Option FailureNotice) :=
  if by_refresh then
    match s.refresh_tokens with
    | [] => .ok (none, s, [], some .noValidRefreshTokens)
    | _ :: _ =>
        match findMatchingPair s.refresh_tokens 0 s.access_tokens with
        | some (i, r, _aud, a) =>
            let call :=
              CollabCall.exchangeTokenCall service_name (some version)
                (some r.token) (some a.token)
            match client.exchangeResponse service_name (some version)
                (some r.token) (some a.token) with
            | .error _ => .error (s, [call])
            | .ok b =>
                let s1 := { s with
                  refresh_tokens := s.refresh_tokens.eraseIdx i
                  access_tokens := s.access_tokens.filter
                    (fun p => p.2.token != r.associated_access_token) }
                match osRemove s1 r.path_on_disk with
                | .error _ => .error (s1, [call])
                | .ok s2 => .ok (some b, s2, [call], none)
        | none =>
            match orphanRefreshLoop client service_name version
                s.refresh_tokens 0 s [] with
            | .error e => .error e
            | .ok (t, s', calls) => .ok (t, s', calls, none)
  else
    match s.access_tokens with
    | [] => .ok (none, s, [], some .noValidAccessTokens)
    | _ :: _ =>
        let vals := s.access_tokens.map (fun p => p.2)
        let a := vals.getD (choice % vals.length)
          { token := "", expires_at := 0, path_on_disk := "" }
        let call :=
          CollabCall.exchangeTokenCall service_name none none (some a.token)
        match client.exchangeResponse service_name none none
            (some a.token) with
        | .error _ => .error (s, [call])
        | .ok b => .ok (some b, s, [call], none)

/-- `OIDCSession.exchange_token`.  The decorator stack first runs the
`remove_expired_tokens` sweep (the liveness ping is assumed alive), then
the body; on success (`token` non-`None`) the bundle is persisted (under
the fresh uuid name `fresh_path` when `store_to_disk`), added to the
internal cache, and the trailing `get_access_token` call runs its own
expiry sweep before the method returns `True`. -/
def exchange_token (client : AuthnClient) (now : Int) (fresh_path : String)
    (choice : Nat) (service_name : String) (version : String)
    (store_to_disk by_refresh : Bool) (s0 : OIDCState) :
    Except (OIDCState × List CollabCall) ExchangeOutcome :=
  match sweep now s0 with
  | .error sErr => .error (sErr, [])
  | .ok s =>
      match exchangeTokenBody client service_name version by_refresh
          choice s with
      | .error e => .error e
      | .ok (token?, s1, calls, notice) =>
          match token? with
          | none =>
              .ok { result := false, state := s1, calls := calls
                    notice := notice }
          | some b =>
              let pathOpt : Option String :=
                if store_to_disk then some fresh_path else none
              let s2 :=
                if store_to_disk then saveTokensToDisk s1 b fresh_path else s1
              match addTokensToInternalCache s2 b pathOpt with
              | .error sErr => .error (sErr, calls)
              | .ok s3 =>
                  match sweep now s3 with
                  | .error sErr => .error (sErr, calls)
                  | .ok s4 =>
                      .ok { result := true, state := s4, calls := calls
                            notice := notice }

/-! ## Device flow polling (session/oidc.py) -/

/-- The JSON body of the device-flow token endpoint: either a `token`
bundle or an `error` code. -/
structure TokenResponse where
  token : Option RawBundle
  error : Option String
deriving DecidableEq, Repr

/-- Normal return of `request_token`: `True`, or the error code. -/
inductive RequestTokenOutcome
  | success
  | errorCode (code : Option String)
deriving DecidableEq, Repr

/-- `OIDCSession.request_token`: expiry sweep (the liveness ping is
assumed alive), then the token endpoint (`resp` is the attempt's
response; `.error` models the call raising); a bundle is persisted and
cached, a response without a token returns its error code without
raising. -/
def request_token (now : Int) (resp : Except Unit TokenResponse)
    (store_to_disk : Bool) (fresh_path : String) (s0 : OIDCState) :
    Except OIDCState (RequestTokenOutcome × OIDCState) :=
  match sweep now s0 with
  | .error sErr => .error sErr
  | .ok s =>
      match resp with
      | .error _ => .error s
      | .ok tr =>
          match tr.token with
          | some b =>
              let pathOpt : Option String :=
                if store_to_disk then some fresh_path else none
              let s1 :=
                if store_to_disk then saveTokensToDisk s b fresh_path else s
              match addTokensToInternalCache s1 b pathOpt with
              | .error sErr => .error sErr
              | .ok s2 => .ok (.success, s2)
          | none => .ok (.errorCode tr.error, s)

/-- The polling loop of `OIDCSession.start_device_flow`:
`for attempt in range(0, max_attempts)` calls `request_token`; ANY normal
return sets `success = True` and breaks, any exception is swallowed and
the loop continues.  Returns the number of `request_token` invocations,
the `success` flag, and the final state.  `resps`, `nows` and `freshes`
give each attempt's endpoint response, clock value and fresh uuid
filename. -/
def pollForToken (resps : Nat → Except Unit TokenResponse)
    (nows : Nat → Int) (freshes : Nat → String) (store_to_disk : Bool) :
    Nat → Nat → OIDCState → Nat × Bool × OIDCState
  | attempt, 0, s => (attempt, false, s)
  | attempt, Nat.succ remaining, s =>
      match request_token (nows attempt) (resps attempt) store_to_disk
          (freshes attempt) s with
      | .error sErr =>
          pollForToken resps nows freshes store_to_disk
            (attempt + 1) remaining sErr
      | .ok (_, s') => (attempt + 1, true, s')

/-- The spec's device-flow terminal states, as decided by the `success`
flag (`Expired` prints the failure notice
`Failed to poll for token. Please try again.`). -/
inductive DeviceFlowEndState
  | Authorized
  | Expired
deriving DecidableEq, Repr

/-- Mapping from the `success` flag at the end of `start_device_flow` to
the spec's terminal state. -/
def deviceFlowEndState (success : Bool) : DeviceFlowEndState :=
  if success then .Authorized else .Expired

/-! ## Token sweep: supporting lemmas -/

/-- Whether the sweep's per-file check deletes the file (no exception and
both flags set). -/
def sweepFileDeletes (now : Int) (f : TokenFile) : Bool :=
  match sweepFileDelete now f with
  | .ok true => true
  | _ => false

/-- The deletion condition of the claims' vocabulary: the file holds an
access token that has expired AND a refresh token that has expired. -/
def fileBothExpired (now : Int) (f : TokenFile) : Prop :=
  (∃ b a c, f.json = some b ∧ b.access_token = some a ∧
    a.claims = some c ∧ c.exp < now) ∧
  (∃ b r c, f.json = some b ∧ b.refresh_token = some r ∧
    r.claims = some c ∧ c.exp < now)

/-- The sweep's per-file check returns `True` exactly when the file holds
an expired access token and an expired refresh token. -/
theorem sweepFileDelete_true_iff (now : Int) (f : TokenFile) :
    sweepFileDelete now f = .ok true ↔ fileBothExpired now f := by
  obtain ⟨path, json⟩ := f
  cases json with
  | none => simp [sweepFileDelete, fileBothExpired]
  | some b =>
      obtain ⟨at?, rt?⟩ := b
      cases rt? with
      | none =>
          cases at? with
          | none =>
              simp [sweepFileDelete, sweepFileDeleteAccess, fileBothExpired]
          | some a =>
              obtain ⟨av, ac?⟩ := a
              cases ac? <;>
                simp [sweepFileDelete, sweepFileDeleteAccess,
                  fileBothExpired]
      | some r =>
          obtain ⟨rv, rc?⟩ := r
          cases rc? with
          | none =>
              simp [sweepFileDelete, sweepFileDeleteAccess, fileBothExpired]
          | some rc =>
              cases at? with
              | none =>
                  simp [sweepFileDelete, sweepFileDeleteAccess,
                    fileBothExpired]
              | some a =>
                  obtain ⟨av, ac?⟩ := a
                  cases ac? with
                  | none =>
                      simp [sweepFileDelete, sweepFileDeleteAccess,
                        fileBothExpired]
                  | some ac =>
                      simp [sweepFileDelete, sweepFileDeleteAccess,
                        fileBothExpired]
                      tauto

/-- Paths of the files the sweep's disk half deletes out of a file list. -/
def sweptPaths (now : Int) (files : List TokenFile) : List String :=
  (files.filter (sweepFileDeletes now)).map TokenFile.path

/-- When every file checks cleanly with a `False` verdict, the disk half
of the sweep is a no-op. -/
theorem sweepDiskAux_noop (now : Int) :
    ∀ (files : List TokenFile) (s : OIDCState),
      (∀ f ∈ files, sweepFileDelete now f = .ok false) →
      sweepDiskAux now files s = .ok s := by
  intro files
  induction files with
  | nil => intro s _; rfl
  | cons f rest ih =>
      intro s h
      have hf : sweepFileDelete now f = .ok false := h f (by simp)
      simp only [sweepDiskAux, hf]
      exact ih s (fun g hg => h g (by simp [hg]))

/-- When every file checks cleanly, the disk half of the sweep succeeds,
leaves memory untouched, and keeps exactly the files whose path is not
among the deleted ones. -/
theorem sweepDiskAux_ok (now : Int) :
    ∀ (files : List TokenFile) (s : OIDCState),
      (∀ f ∈ files, ∃ bo, sweepFileDelete now f = .ok bo) →
      sweepDiskAux now files s =
        .ok { s with disk := s.disk.filter (fun g => !((sweptPaths now files).contains g.path)) } := by
  intro files
  induction files with
  | nil =>
      intro s _
      simp [sweepDiskAux, sweptPaths]
  | cons f rest ih =>
      intro s h
      obtain ⟨bo, hbo⟩ := h f (by simp)
      have hrest : ∀ g ∈ rest, ∃ bo, sweepFileDelete now g = .ok bo :=
        fun g hg => h g (by simp [hg])
      cases bo with
      | false =>
          have hflag : sweepFileDeletes now f = false := by
            simp [sweepFileDeletes, hbo]
          simp only [sweepDiskAux, hbo]
          rw [ih s hrest]
          have hsp : sweptPaths now (f :: rest) = sweptPaths now rest := by
            simp [sweptPaths, List.filter_cons, hflag]
          rw [hsp]
      | true =>
          have hflag : sweepFileDeletes now f = true := by
            simp [sweepFileDeletes, hbo]
          simp only [sweepDiskAux, hbo]
          rw [ih _ hrest]
          have hsp : sweptPaths now (f :: rest) =
              f.path :: sweptPaths now rest := by
            simp [sweptPaths, List.filter_cons, hflag]
          rw [hsp]
          have hfilters :
              (List.filter (fun g => g.path != f.path) s.disk).filter
                  (fun g => !((sweptPaths now rest).contains g.path)) =
                s.disk.filter
                  (fun g => !((f.path :: sweptPaths now rest).contains g.path)) := by
            rw [List.filter_filter]
            apply List.filter_congr
            intro g _
            by_cases hp : g.path = f.path <;>
              by_cases hc : g.path ∈ sweptPaths now rest <;>
                simp [List.contains_cons, hp, hc, bne]
          simp only [hfilters]

/-- Memory (the access and refresh caches) is untouched by the disk half
of the sweep, on both the normal and the raising path. -/
theorem sweepDiskAux_memory (now : Int) :
    ∀ (files : List TokenFile) (s : OIDCState),
      (∀ s', sweepDiskAux now files s = .ok s' →
        s'.access_tokens = s.access_tokens ∧
          s'.refresh_tokens = s.refresh_tokens) ∧
      (∀ s', sweepDiskAux now files s = .error s' →
        s'.access_tokens = s.access_tokens ∧
          s'.refresh_tokens = s.refresh_tokens) := by
  intro files
  induction files with
  | nil =>
      intro s
      constructor
      · intro s' h
        cases h
        exact ⟨rfl, rfl⟩
      · intro s' h
        cases h
  | cons f rest ih =>
      intro s
      constructor
      · intro s' h
        simp only [sweepDiskAux] at h
        split at h
        · exact Except.noConfusion h
        · exact (ih { s with disk := s.disk.filter (fun g => g.path != f.path) }).1 s' h
        · exact (ih s).1 s' h
      · intro s' h
        simp only [sweepDiskAux] at h
        split at h
        · cases h; exact ⟨rfl, rfl⟩
        · exact (ih { s with disk := s.disk.filter (fun g => g.path != f.path) }).2 s' h
        · exact (ih s).2 s' h

/-- When no cached token has expired, the memory half of the sweep is the
identity. -/
theorem sweepMemory_noop (now : Int) (s : OIDCState)
    (hA : ∀ p ∈ s.access_tokens, now ≤ p.2.expires_at)
    (hR : ∀ e ∈ s.refresh_tokens, now ≤ e.expires_at) :
    sweepMemory now s = s := by
  unfold sweepMemory
  have h1 : s.access_tokens.filter
      (fun p => decide (now ≤ p.2.expires_at)) = s.access_tokens :=
    List.filter_eq_self.mpr (fun a ha => by simpa using hA a ha)
  have h2 : s.refresh_tokens.filter
      (fun e => decide (now ≤ e.expires_at)) = s.refresh_tokens :=
    List.filter_eq_self.mpr (fun e he => by simpa using hR e he)
  rw [h1, h2]

/-- When no cached token has expired and every file checks cleanly with a
`False` verdict, the whole `remove_expired_tokens` sweep is a no-op. -/
theorem sweep_noop (now : Int) (s : OIDCState)
    (hA : ∀ p ∈ s.access_tokens, now ≤ p.2.expires_at)
    (hR : ∀ e ∈ s.refresh_tokens, now ≤ e.expires_at)
    (hD : ∀ f ∈ s.disk, sweepFileDelete now f = .ok false) :
    sweep now s = .ok s := by
  unfold sweep
  rw [sweepMemory_noop now s hA hR]
  exact sweepDiskAux_noop now s.disk s hD

/-- The per-file verdict flag agrees with the `.ok true` outcome. -/
theorem sweepFileDeletes_eq_true_iff (now : Int) (f : TokenFile) :
    sweepFileDeletes now f = true ↔ sweepFileDelete now f = .ok true := by
  unfold sweepFileDeletes
  split <;> simp_all

/-! ## Claim C3: the expiry sweep -/

/-- The deletion condition in the claim's own words ("all tokens
contained in that file have expired"): every token present in the file
has an `exp` claim in the past; a token kind that is absent constrains
nothing. -/
def specFileAllTokensExpired (now : Int) (b : RawBundle) : Bool :=
  (match b.access_token with
   | some a =>
       match a.claims with
       | some c => decide (c.exp < now)
       | none => true
   | none => true) &&
  (match b.refresh_token with
   | some r =>
       match r.claims with
       | some c => decide (c.exp < now)
       | none => true
   | none => true)

/-- A file holding a single, expired access token and no refresh token. -/
def expiredAccessOnlyBundle : RawBundle :=
  { access_token := some
      { value := "expired-access"
        claims := some { aud := some "svc-a", exp := -1 } }
    refresh_token := none }

/-- The token directory containing only `expiredAccessOnlyBundle`. -/
def expiredAccessOnlyFile : TokenFile :=
  { path := "t1.token", json := some expiredAccessOnlyBundle }

/-- A session state whose only on-disk file has all its tokens expired. -/
def expiredAccessOnlyState : OIDCState :=
  { access_tokens := [], refresh_tokens := [], disk := [expiredAccessOnlyFile] }

/-- Counterexample to claim C3 as stated: at `now = 0`, every token in
`expiredAccessOnlyFile` has expired, yet the sweep leaves the state — in
particular the file — untouched, because the code only deletes a file
when it holds an expired token of BOTH kinds (`refresh_token_has_expired`
stays `False` for a file with no refresh token). -/
theorem token_sweep_counterexample :
    specFileAllTokensExpired 0 expiredAccessOnlyBundle = true ∧
    expiredAccessOnlyState.disk = [expiredAccessOnlyFile] ∧
    sweep 0 expiredAccessOnlyState = Except.ok expiredAccessOnlyState :=
  ⟨rfl, rfl, rfl⟩

/-- Claim C3, amended: the expiry sweep removes from memory every cached
access token and refresh token whose `expires_at` has passed, and deletes
a token file on disk if and only if the file contains an access token
that has expired AND a refresh token that has expired — so a still-valid
sibling token in the same file prevents deletion, but a file lacking one
of the two token kinds is never deleted, even when all tokens it does
contain have expired. -/
theorem token_sweep_amended (now : Int) (s : OIDCState)
    (hfiles : ∀ f ∈ s.disk, ∃ bo, sweepFileDelete now f = .ok bo)
    (hnodup : (s.disk.map TokenFile.path).Nodup) :
    ∃ s', sweep now s = .ok s' ∧
      (∀ aud e, (aud, e) ∈ s'.access_tokens ↔
        ((aud, e) ∈ s.access_tokens ∧ now ≤ e.expires_at)) ∧
      (∀ e, e ∈ s'.refresh_tokens ↔
        (e ∈ s.refresh_tokens ∧ now ≤ e.expires_at)) ∧
      (∀ f ∈ s.disk, (f ∈ s'.disk ↔ ¬ fileBothExpired now f)) := by
  unfold sweep
  have hd : (sweepMemory now s).disk = s.disk := rfl
  rw [sweepDiskAux_ok now _ _ (by rw [hd]; exact hfiles)]
  refine ⟨_, rfl, ?_, ?_, ?_⟩
  · intro aud e
    simp [sweepMemory, List.mem_filter]
  · intro e
    simp [sweepMemory, List.mem_filter]
  · intro f hf
    rw [hd]
    simp only [List.mem_filter]
    constructor
    · rintro ⟨-, hkeep⟩ hboth
      have hdel : sweepFileDeletes now f = true :=
        (sweepFileDeletes_eq_true_iff now f).mpr
          ((sweepFileDelete_true_iff now f).mpr hboth)
      have hmem : f.path ∈ sweptPaths now s.disk := by
        unfold sweptPaths
        exact List.mem_map_of_mem _ (List.mem_filter.mpr ⟨hf, hdel⟩)
      simp [hmem] at hkeep
    · intro hnboth
      refine ⟨hf, ?_⟩
      by_cases hmem : f.path ∈ sweptPaths now s.disk
      · exfalso
        unfold sweptPaths at hmem
        obtain ⟨g, hg, hgp⟩ := List.mem_map.mp hmem
        obtain ⟨hgdisk, hgdel⟩ := List.mem_filter.mp hg
        have hgf : g = f :=
          List.inj_on_of_nodup_map hnodup hgdisk hf hgp
        subst hgf
        exact hnboth ((sweepFileDelete_true_iff now g).mp
          ((sweepFileDeletes_eq_true_iff now g).mp hgdel))
      · simp [hmem]

/-- Witness for the amended C3 at a concrete two-file state: a file whose
access token expired but whose refresh token is still valid is kept, and
a file with both tokens expired is deleted. -/
def mixedSweepState : OIDCState :=
  { access_tokens := [("svc-a", { token := "at-live", expires_at := 100, path_on_disk := "mix.token" })]
    refresh_tokens := [{ token := "rt-live", associated_access_token := "at-live", expires_at := 100, path_on_disk := "mix.token" }]
    disk := [{ path := "mix.token", json := some { access_token := some { value := "at-old", claims := some { aud := some "svc-a", exp := -5 } }, refresh_token := some { value := "rt-live", claims := some { aud := none, exp := 100 } } } },
             { path := "dead.token", json := some { access_token := some { value := "at-dead", claims := some { aud := some "svc-b", exp := -5 } }, refresh_token := some { value := "rt-dead", claims := some { aud := none, exp := -5 } } } }] }

/-- Witness: `token_sweep_amended` applied at `mixedSweepState`. -/
theorem token_sweep_amended_witness :
    ∃ s', sweep 0 mixedSweepState = Except.ok s' ∧
      (∀ aud e, (aud, e) ∈ s'.access_tokens ↔
        ((aud, e) ∈ mixedSweepState.access_tokens ∧ (0 : Int) ≤ e.expires_at)) ∧
      (∀ e, e ∈ s'.refresh_tokens ↔
        (e ∈ mixedSweepState.refresh_tokens ∧ (0 : Int) ≤ e.expires_at)) ∧
      (∀ f ∈ mixedSweepState.disk, (f ∈ s'.disk ↔ ¬ fileBothExpired 0 f)) :=
  token_sweep_amended 0 mixedSweepState
    (by
      intro f hf
      simp only [mixedSweepState] at hf
      simp only [List.mem_cons, List.mem_singleton] at hf
      rcases hf with h | h | h
      · exact ⟨false, by rw [h]; rfl⟩
      · exact ⟨true, by rw [h]; rfl⟩
      · cases h)
    (by decide)

/-! ## Claim C8: loading persisted tokens -/

/-- A bundle on which `_add_tokens_to_internal_cache` completes without
raising: the access token is present and decodable, and the refresh
token, when present, is decodable. -/
def RawBundle.decodesOk (b : RawBundle) : Bool :=
  (match b.access_token with
   | some a => a.claims.isSome
   | none => false) &&
  (match b.refresh_token with
   | some r => r.claims.isSome
   | none => true)

/-- An audience key has an entry in the access-token dict. -/
def keyPresent (k : String) (l : List (String × AccessEntry)) : Prop :=
  ∃ e, (k, e) ∈ l

/-- Inserting under a key makes that key present. -/
theorem keyPresent_dictInsert_self (l : List (String × AccessEntry))
    (k : String) (v : AccessEntry) : keyPresent k (dictInsert l k v) := by
  unfold dictInsert keyPresent
  split
  · rename_i hany
    obtain ⟨p, hp, hpk⟩ := List.any_eq_true.mp hany
    refine ⟨v, ?_⟩
    have h2 := List.mem_map_of_mem (fun q => if q.1 == k then (k, v) else q) hp
    simpa [hpk] using h2
  · exact ⟨v, by simp⟩

/-- Inserting under any key preserves the presence of every key. -/
theorem keyPresent_dictInsert_mono (l : List (String × AccessEntry))
    (k k' : String) (v : AccessEntry) (h : keyPresent k l) :
    keyPresent k (dictInsert l k' v) := by
  obtain ⟨e, he⟩ := h
  unfold dictInsert keyPresent
  split
  · by_cases hk : k = k'
    · subst hk
      refine ⟨v, ?_⟩
      have h2 := List.mem_map_of_mem (fun q => if q.1 == k then (k, v) else q) he
      simpa using h2
    · refine ⟨e, ?_⟩
      have h2 := List.mem_map_of_mem (fun q => if q.1 == k' then (k', v) else q) he
      simpa [hk] using h2
  · exact ⟨e, by simp [he]⟩

/-- On a decodable bundle, `_add_tokens_to_internal_cache` succeeds,
leaves the disk untouched, preserves every cached audience, and caches
the bundle's access token under its audience when it has one. -/
theorem addTokens_ok_of_decodesOk (s : OIDCState) (b : RawBundle)
    (p? : Option String) (h : b.decodesOk = true) :
    ∃ s', addTokensToInternalCache s b p? = .ok s' ∧
      s'.disk = s.disk ∧
      (∀ k, keyPresent k s.access_tokens → keyPresent k s'.access_tokens) ∧
      (∀ a c A, b.access_token = some a → a.claims = some c →
        c.aud = some A → keyPresent A s'.access_tokens) := by
  obtain ⟨at?, rt?⟩ := b
  cases at? with
  | none => simp [RawBundle.decodesOk] at h
  | some a =>
      obtain ⟨av, ac?⟩ := a
      cases ac? with
      | none => simp [RawBundle.decodesOk] at h
      | some ac =>
          cases hcaud : ac.aud with
          | none =>
              cases rt? with
              | none =>
                  refine ⟨s, ?_, rfl, fun k hk => hk, ?_⟩
                  · simp [addTokensToInternalCache, hcaud]
                  · intro a' c' A' h1 h2 h3
                    cases h1
                    cases h2
                    rw [hcaud] at h3
                    cases h3
              | some r =>
                  obtain ⟨rv, rc?⟩ := r
                  cases rc? with
                  | none => simp [RawBundle.decodesOk] at h
                  | some rc =>
                      refine ⟨{ s with refresh_tokens := s.refresh_tokens ++ [{ token := rv, associated_access_token := av, expires_at := rc.exp, path_on_disk := p?.getD "INTERNAL" }] }, ?_, rfl, fun k hk => hk, ?_⟩
                      · simp [addTokensToInternalCache, hcaud]
                      · intro a' c' A' h1 h2 h3
                        cases h1
                        cases h2
                        rw [hcaud] at h3
                        cases h3
          | some A =>
              cases rt? with
              | none =>
                  refine ⟨{ s with access_tokens := dictInsert s.access_tokens A { token := av, expires_at := ac.exp, path_on_disk := p?.getD "INTERNAL" } }, ?_, rfl, ?_, ?_⟩
                  · simp [addTokensToInternalCache, hcaud]
                  · intro k hk
                    exact keyPresent_dictInsert_mono _ k A _ hk
                  · intro a' c' A' h1 h2 h3
                    cases h1
                    cases h2
                    rw [hcaud] at h3
                    cases h3
                    exact keyPresent_dictInsert_self _ A _
              | some r =>
                  obtain ⟨rv, rc?⟩ := r
                  cases rc? with
                  | none => simp [RawBundle.decodesOk] at h
                  | some rc =>
                      refine ⟨{ s with access_tokens := dictInsert s.access_tokens A { token := av, expires_at := ac.exp, path_on_disk := p?.getD "INTERNAL" }, refresh_tokens := s.refresh_tokens ++ [{ token := rv, associated_access_token := av, expires_at := rc.exp, path_on_disk := p?.getD "INTERNAL" }] }, ?_, rfl, ?_, ?_⟩
                      · simp [addTokensToInternalCache, hcaud]
                      · intro k hk
                        exact keyPresent_dictInsert_mono _ k A _ hk
                      · intro a' c' A' h1 h2 h3
                        cases h1
                        cases h2
                        rw [hcaud] at h3
                        cases h3
                        exact keyPresent_dictInsert_self _ A _

/-- Paths of the files of a list whose contents fail `json.loads`. -/
def badParsePaths (files : List TokenFile) : List String :=
  (files.filter (fun f => f.json.isNone)).map TokenFile.path

/-- Behaviour of the `load_tokens_from_disk` loop when every parseable
file decodes: the loop succeeds, deletes exactly the files whose JSON
fails to parse, preserves every cached audience, and caches every
decodable access token (with an audience) of the scanned files. -/
theorem loadFilesAux_ok :
    ∀ (files : List TokenFile) (s : OIDCState),
      (∀ f ∈ files, ∀ b, f.json = some b → b.decodesOk = true) →
      ∃ s', loadFilesAux files s = .ok s' ∧
        s'.disk = s.disk.filter (fun g => !((badParsePaths files).contains g.path)) ∧
        (∀ k, keyPresent k s.access_tokens → keyPresent k s'.access_tokens) ∧
        (∀ f ∈ files, ∀ b a c A, f.json = some b →
          b.access_token = some a → a.claims = some c → c.aud = some A →
          keyPresent A s'.access_tokens) := by
  intro files
  induction files with
  | nil =>
      intro s _
      refine ⟨s, rfl, ?_, fun k hk => hk, by simp⟩
      simp [badParsePaths]
  | cons f rest ih =>
      intro s h
      cases hj : f.json with
      | none =>
          have hrest : ∀ g ∈ rest, ∀ b, g.json = some b → b.decodesOk = true :=
            fun g hg => h g (by simp [hg])
          obtain ⟨s', hrun, hdisk, hmono, hpop⟩ :=
            ih { s with disk := s.disk.filter (fun g => g.path != f.path) } hrest
          refine ⟨s', ?_, ?_, hmono, ?_⟩
          · simp only [loadFilesAux, hj]
            exact hrun
          · rw [hdisk]
            have hbp : badParsePaths (f :: rest) =
                f.path :: badParsePaths rest := by
              simp [badParsePaths, List.filter_cons, hj]
            rw [hbp]
            rw [List.filter_filter]
            apply List.filter_congr
            intro g _
            by_cases hp : g.path = f.path <;>
              by_cases hc : g.path ∈ badParsePaths rest <;>
                simp [List.contains_cons, hp, hc, bne]
          · intro g hg b a c A h1 h2 h3 h4
            rcases List.mem_cons.mp hg with hgf | hgr
            · subst hgf
              rw [hj] at h1
              cases h1
            · exact hpop g hgr b a c A h1 h2 h3 h4
      | some b =>
          have hdec := h f (by simp) b hj
          obtain ⟨s1, hadd, haddisk, haddmono, haddaud⟩ :=
            addTokens_ok_of_decodesOk s b (some f.path) hdec
          have hrest : ∀ g ∈ rest, ∀ b', g.json = some b' → b'.decodesOk = true :=
            fun g hg => h g (by simp [hg])
          obtain ⟨s', hrun, hdisk, hmono, hpop⟩ := ih s1 hrest
          refine ⟨s', ?_, ?_, fun k hk => hmono k (haddmono k hk), ?_⟩
          · simp only [loadFilesAux, hj, hadd]
            exact hrun
          · rw [hdisk, haddisk]
            have hbp : badParsePaths (f :: rest) = badParsePaths rest := by
              simp [badParsePaths, List.filter_cons, hj]
            rw [hbp]
          · intro g hg b' a c A h1 h2 h3 h4
            rcases List.mem_cons.mp hg with hgf | hgr
            · subst hgf
              rw [hj] at h1
              cases h1
              exact hmono A (haddaud a c A h2 h3 h4)
            · exact hpop g hgr b' a c A h1 h2 h3 h4

/-- A file whose contents are valid JSON but whose access token fails
`jwt.decode`. -/
def badClaimsFile : TokenFile :=
  { path := "bad-claims.token"
    json := some { access_token := some { value := "not-a-jwt", claims := none }
                   refresh_token := none } }

/-- A state whose token directory holds only `badClaimsFile`. -/
def badClaimsState : OIDCState :=
  { access_tokens := [], refresh_tokens := [], disk := [badClaimsFile] }

/-- Counterexample to claim C8 as stated: a file whose claims fail to
decode is NOT deleted and skipped — the `jwt.decode` failure is not a
`JSONDecodeError`, so it propagates to the caller and the file stays on
disk. -/
theorem load_tokens_counterexample :
    loadTokensFromDisk badClaimsState = Except.error badClaimsState ∧
    badClaimsState.disk = [badClaimsFile] :=
  ⟨rfl, rfl⟩

/-- Claim C8, amended: a file whose contents fail to JSON-parse is
deleted and skipped rather than surfaced as an error; files that parse
and whose claims decode populate the TokenStore (every audience already
cached stays cached and every scanned access token with an audience gets
an entry).  A file whose JSON parses but whose token claims fail to
decode is NOT deleted and skipped: the `jwt.decode` failure propagates to
the caller. -/
theorem load_tokens_amended (s : OIDCState)
    (hdec : ∀ f ∈ s.disk, ∀ b, f.json = some b → b.decodesOk = true) :
    ∃ s', loadTokensFromDisk s = .ok s' ∧
      s'.disk = s.disk.filter (fun g => !((badParsePaths s.disk).contains g.path)) ∧
      (∀ k, keyPresent k s.access_tokens → keyPresent k s'.access_tokens) ∧
      (∀ f ∈ s.disk, ∀ b a c A, f.json = some b →
        b.access_token = some a → a.claims = some c → c.aud = some A →
        keyPresent A s'.access_tokens) :=
  loadFilesAux_ok s.disk s hdec

/-- A two-file directory: one JSON-corrupt file, one good bundle. -/
def mixedLoadState : OIDCState :=
  { access_tokens := []
    refresh_tokens := []
    disk := [{ path := "corrupt.token", json := none },
             { path := "good.token", json := some { access_token := some { value := "at-good", claims := some { aud := some "svc-c", exp := 50 } }, refresh_token := none } }] }

/-- Witness: `load_tokens_amended` applied at `mixedLoadState`. -/
theorem load_tokens_amended_witness :
    ∃ s', loadTokensFromDisk mixedLoadState = .ok s' ∧
      s'.disk = mixedLoadState.disk.filter (fun g => !((badParsePaths mixedLoadState.disk).contains g.path)) ∧
      (∀ k, keyPresent k mixedLoadState.access_tokens → keyPresent k s'.access_tokens) ∧
      (∀ f ∈ mixedLoadState.disk, ∀ b a c A, f.json = some b →
        b.access_token = some a → a.claims = some c → c.aud = some A →
        keyPresent A s'.access_tokens) :=
  load_tokens_amended mixedLoadState
    (by
      intro f hf b hb
      simp only [mixedLoadState, List.mem_cons, List.mem_singleton] at hf
      rcases hf with h | h | h
      · rw [h] at hb; cases hb
      · rw [h] at hb
        cases hb
        rfl
      · cases h)

/-! ## Claim C6: direct exchange on an empty access-token cache -/

/-- A collaborator that is never reached (every endpoint fails). -/
def nullClient : AuthnClient :=
  { exchangeResponse := fun _ _ _ _ => .error ()
    refreshResponse := fun _ => .error () }

/-- The fully empty token store. -/
def emptyState : OIDCState :=
  { access_tokens := [], refresh_tokens := [], disk := [] }

/-- A store with an empty access-token cache but one expired refresh
token in memory. -/
def staleRefreshState : OIDCState :=
  { access_tokens := []
    refresh_tokens := [{ token := "rt-stale", associated_access_token := "at-gone", expires_at := -1, path_on_disk := "INTERNAL" }]
    disk := [] }

/-- Counterexample to claim C6 as stated: `exchange(B, direct)` on a
store whose access-token cache is empty does NOT leave the store
unchanged in general — the expiry-sweep guard that runs first removes the
expired refresh token, so the final state differs from the initial
one (the failure itself is signalled by `False` plus the
no-valid-access-tokens critical log, not by leaving the body). -/
theorem exchange_direct_counterexample :
    exchange_token nullClient 0 "fresh.token" 0 "svc-b" "latest" true false
        staleRefreshState =
      .ok { result := false, state := emptyState, calls := [], notice := some .noValidAccessTokens } ∧
    emptyState ≠ staleRefreshState :=
  ⟨rfl, by decide⟩

/-- Claim C6, amended: `exchange(B, direct)` on a store whose access
cache is empty after the expiry-sweep guard fails with the
no-access-token failure (return `False` with the critical notice), makes
no collaborator call, and performs no store mutation beyond that guard
sweep — in particular a fully empty TokenStore is left unchanged. -/
theorem exchange_direct_empty (client : AuthnClient) (now : Int)
    (fresh_path : String) (choice : Nat) (service_name version : String)
    (store_to_disk : Bool) (s s' : OIDCState)
    (h1 : sweep now s = .ok s') (h2 : s'.access_tokens = []) :
    exchange_token client now fresh_path choice service_name version
        store_to_disk false s =
      .ok { result := false, state := s', calls := [], notice := some .noValidAccessTokens } := by
  simp only [exchange_token, h1]
  simp only [exchangeTokenBody, h2]
  simp

/-- Witness for the amended C6 at the fully empty store: the operation
fails and the store is unchanged. -/
theorem exchange_direct_empty_witness :
    exchange_token nullClient 0 "fresh.token" 0 "svc-b" "latest" true false
        emptyState =
      .ok { result := false, state := emptyState, calls := [], notice := some .noValidAccessTokens } :=
  exchange_direct_empty nullClient 0 "fresh.token" 0 "svc-b" "latest" true
    emptyState emptyState rfl rfl

/-! ## Claims C4, C5: exchange by refresh -/

/-- Every entry of `dictInsert l k v` is an entry of `l` or the inserted
pair. -/
theorem mem_dictInsert (l : List (String × AccessEntry)) (k : String)
    (v : AccessEntry) (p : String × AccessEntry)
    (h : p ∈ dictInsert l k v) : p ∈ l ∨ p = (k, v) := by
  unfold dictInsert at h
  split at h
  · obtain ⟨q, hq, hfq⟩ := List.mem_map.mp h
    by_cases hqk : q.1 == k
    · right
      rw [if_pos hqk] at hfq
      exact hfq.symm
    · left
      rw [if_neg hqk] at hfq
      exact hfq ▸ hq
  · rcases List.mem_append.mp h with hl | hr
    · exact Or.inl hl
    · right
      simpa using hr

/-- When no access token matches any refresh token's association, the
nested search finds nothing. -/
theorem findMatchingPair_none (al : List (String × AccessEntry)) :
    ∀ (rl : List RefreshEntry) (i : Nat),
      (∀ r ∈ rl, ∀ p ∈ al, p.2.token ≠ r.associated_access_token) →
      findMatchingPair rl i al = none := by
  intro rl
  induction rl with
  | nil => intro i _; rfl
  | cons r rest ih =>
      intro i h
      have hfind : al.find?
          (fun p => p.2.token == r.associated_access_token) = none := by
        apply List.find?_eq_none.mpr
        intro p hp
        simp [h r (by simp) p hp]
      simp only [findMatchingPair, hfind]
      exact ih (i + 1) (fun r' hr' => h r' (by simp [hr']))

/-- A freshly written bundle file holding live access and refresh tokens
checks cleanly in the sweep with a `False` verdict. -/
theorem sweepFileDelete_live_bundle (now : Int) (p av rv : String)
    (aAud rAud : Option String) (aexp rexp : Int)
    (ha : now ≤ aexp) (hr : now ≤ rexp) :
    sweepFileDelete now { path := p, json := some { access_token := some { value := av, claims := some { aud := aAud, exp := aexp } }, refresh_token := some { value := rv, claims := some { aud := rAud, exp := rexp } } } } = .ok false := by
  have ha' : ¬(aexp < now) := not_lt.mpr ha
  have hr' : ¬(rexp < now) := not_lt.mpr hr
  simp [sweepFileDelete, sweepFileDeleteAccess, ha', hr']

/-- Claim C5: on a live store holding refresh tokens but no access token
matching any refresh token's association, `exchange(B, byRefresh)` first
calls the collaborator's refresh operation with the (first) orphaned
RefreshToken, removes that RefreshToken from memory and deletes its
backing file, then performs the exchange with the freshly minted
access/refresh pair; the returned bundle is persisted to a fresh file and
cached, yielding an access-token entry for the bundle's audience `B` and
a new RefreshToken. -/
theorem exchange_orphan_refresh (client : AuthnClient) (now : Int)
    (fresh_path : String) (choice : Nat) (service_name version : String)
    (al : List (String × AccessEntry)) (r0 : RefreshEntry)
    (rrest : List RefreshEntry) (d : List TokenFile)
    (refreshed : RawBundle) (av rv : String) (B : String)
    (rAud : Option String) (aexp rexp : Int)
    (hA : ∀ p ∈ al, now ≤ p.2.expires_at)
    (hR : ∀ e ∈ r0 :: rrest, now ≤ e.expires_at)
    (hD : ∀ f ∈ d, sweepFileDelete now f = .ok false)
    (hnomatch : ∀ r ∈ r0 :: rrest, ∀ p ∈ al,
      p.2.token ≠ r.associated_access_token)
    (hrefresh : client.refreshResponse r0.token = .ok refreshed)
    (hfile : d.any (fun f => f.path == r0.path_on_disk) = true)
    (hexch : client.exchangeResponse service_name (some version)
        (refreshed.refresh_token.map (fun j => j.value))
        (refreshed.access_token.map (fun j => j.value)) =
      .ok { access_token := some { value := av, claims := some { aud := some B, exp := aexp } }, refresh_token := some { value := rv, claims := some { aud := rAud, exp := rexp } } })
    (haexp : now ≤ aexp) (hrexp : now ≤ rexp) :
    exchange_token client now fresh_path choice service_name version
        true true { access_tokens := al, refresh_tokens := r0 :: rrest, disk := d } =
      .ok { result := true
            state := { access_tokens := dictInsert al B { token := av, expires_at := aexp, path_on_disk := fresh_path }, refresh_tokens := rrest ++ [{ token := rv, associated_access_token := av, expires_at := rexp, path_on_disk := fresh_path }], disk := d.filter (fun f => f.path != r0.path_on_disk) ++ [{ path := fresh_path, json := some { access_token := some { value := av, claims := some { aud := some B, exp := aexp } }, refresh_token := some { value := rv, claims := some { aud := rAud, exp := rexp } } } }] }
            calls := [CollabCall.refreshTokenCall r0.token,
                      CollabCall.exchangeTokenCall service_name (some version) (refreshed.refresh_token.map (fun j => j.value)) (refreshed.access_token.map (fun j => j.value))]
            notice := none } := by
  have hsweep : sweep now { access_tokens := al, refresh_tokens := r0 :: rrest, disk := d } = .ok { access_tokens := al, refresh_tokens := r0 :: rrest, disk := d } :=
    sweep_noop now _ hA hR hD
  have hfm : findMatchingPair (r0 :: rrest) 0 al = none :=
    findMatchingPair_none al (r0 :: rrest) 0
      (fun r hr p hp => hnomatch r hr p hp)
  have hbody : exchangeTokenBody client service_name version true choice
      { access_tokens := al, refresh_tokens := r0 :: rrest, disk := d } =
      .ok (some { access_token := some { value := av, claims := some { aud := some B, exp := aexp } }, refresh_token := some { value := rv, claims := some { aud := rAud, exp := rexp } } },
        { access_tokens := al, refresh_tokens := rrest, disk := d.filter (fun f => f.path != r0.path_on_disk) },
        [CollabCall.refreshTokenCall r0.token,
         CollabCall.exchangeTokenCall service_name (some version) (refreshed.refresh_token.map (fun j => j.value)) (refreshed.access_token.map (fun j => j.value))],
        none) := by
    simp [exchangeTokenBody, hfm, orphanRefreshLoop, hrefresh, osRemove,
      hfile, hexch]
  have hadd : addTokensToInternalCache
      { access_tokens := al, refresh_tokens := rrest, disk := d.filter (fun f => f.path != r0.path_on_disk) ++ [{ path := fresh_path, json := some { access_token := some { value := av, claims := some { aud := some B, exp := aexp } }, refresh_token := some { value := rv, claims := some { aud := rAud, exp := rexp } } } }] }
      { access_token := some { value := av, claims := some { aud := some B, exp := aexp } }, refresh_token := some { value := rv, claims := some { aud := rAud, exp := rexp } } }
      (some fresh_path) =
      .ok { access_tokens := dictInsert al B { token := av, expires_at := aexp, path_on_disk := fresh_path }, refresh_tokens := rrest ++ [{ token := rv, associated_access_token := av, expires_at := rexp, path_on_disk := fresh_path }], disk := d.filter (fun f => f.path != r0.path_on_disk) ++ [{ path := fresh_path, json := some { access_token := some { value := av, claims := some { aud := some B, exp := aexp } }, refresh_token := some { value := rv, claims := some { aud := rAud, exp := rexp } } } }] } := by
    simp [addTokensToInternalCache]
  have hfin : sweep now
      { access_tokens := dictInsert al B { token := av, expires_at := aexp, path_on_disk := fresh_path }, refresh_tokens := rrest ++ [{ token := rv, associated_access_token := av, expires_at := rexp, path_on_disk := fresh_path }], disk := d.filter (fun f => f.path != r0.path_on_disk) ++ [{ path := fresh_path, json := some { access_token := some { value := av, claims := some { aud := some B, exp := aexp } }, refresh_token := some { value := rv, claims := some { aud := rAud, exp := rexp } } } }] } =
      .ok { access_tokens := dictInsert al B { token := av, expires_at := aexp, path_on_disk := fresh_path }, refresh_tokens := rrest ++ [{ token := rv, associated_access_token := av, expires_at := rexp, path_on_disk := fresh_path }], disk := d.filter (fun f => f.path != r0.path_on_disk) ++ [{ path := fresh_path, json := some { access_token := some { value := av, claims := some { aud := some B, exp := aexp } }, refresh_token := some { value := rv, claims := some { aud := rAud, exp := rexp } } } }] } := by
    apply sweep_noop
    · intro p hp
      rcases mem_dictInsert _ _ _ p hp with h | h
      · exact hA p h
      · rw [h]
        exact haexp
    · intro e he
      rcases List.mem_append.mp he with h | h
      · exact hR e (by simp [h])
      · simp only [List.mem_singleton] at h
        rw [h]
        exact hrexp
    · intro f hf
      rcases List.mem_append.mp hf with h | h
      · exact hD f (List.mem_filter.mp h).1
      · simp only [List.mem_singleton] at h
        rw [h]
        exact sweepFileDelete_live_bundle now fresh_path av rv (some B)
          rAud aexp rexp haexp hrexp
  simp [exchange_token, hsweep, hbody, saveTokensToDisk, hadd, hfin]

/-- Backing file of the orphaned refresh token (contents still live, so
the sweep keeps it until the exchange's explicit `os.remove`). -/
def orphanFileW : TokenFile :=
  { path := "old.token"
    json := some { access_token := some { value := "at-old", claims := some { aud := some "svc-a", exp := 10 } }, refresh_token := some { value := "rt-orphan", claims := some { aud := none, exp := 10 } } } }

/-- The orphaned refresh token: its associated access token is no longer
cached. -/
def orphanR0 : RefreshEntry :=
  { token := "rt-orphan", associated_access_token := "at-gone"
    expires_at := 10, path_on_disk := "old.token" }

/-- The bundle minted by the refresh endpoint. -/
def refreshedW : RawBundle :=
  { access_token := some { value := "at-minted", claims := some { aud := some "svc-x", exp := 50 } }
    refresh_token := some { value := "rt-minted", claims := some { aud := none, exp := 50 } } }

/-- The bundle returned by the exchange endpoint, scoped to `svc-b`. -/
def exchangedW : RawBundle :=
  { access_token := some { value := "at-b", claims := some { aud := some "svc-b", exp := 100 } }
    refresh_token := some { value := "rt-b", claims := some { aud := none, exp := 100 } } }

/-- A collaborator which refreshes `rt-orphan` and exchanges for
`svc-b`. -/
def orphanClientW : AuthnClient :=
  { exchangeResponse := fun svc _ _ _ =>
      if svc == "svc-b" then .ok exchangedW else .error ()
    refreshResponse := fun t =>
      if t == "rt-orphan" then .ok refreshedW else .error () }

/-- Witness for C5: the orphaned-refresh exchange at a concrete store
with one orphaned refresh token and no access tokens. -/
theorem exchange_orphan_refresh_witness :
    exchange_token orphanClientW 0 "fresh-uuid.token" 0 "svc-b" "latest"
        true true { access_tokens := [], refresh_tokens := [orphanR0], disk := [orphanFileW] } =
      .ok { result := true
            state := { access_tokens := dictInsert [] "svc-b" { token := "at-b", expires_at := 100, path_on_disk := "fresh-uuid.token" }, refresh_tokens := [] ++ [{ token := "rt-b", associated_access_token := "at-b", expires_at := 100, path_on_disk := "fresh-uuid.token" }], disk := [orphanFileW].filter (fun f => f.path != orphanR0.path_on_disk) ++ [{ path := "fresh-uuid.token", json := some exchangedW }] }
            calls := [CollabCall.refreshTokenCall "rt-orphan",
                      CollabCall.exchangeTokenCall "svc-b" (some "latest") (some "rt-minted") (some "at-minted")]
            notice := none } :=
  exchange_orphan_refresh orphanClientW 0 "fresh-uuid.token" 0 "svc-b"
    "latest" [] orphanR0 [] [orphanFileW] refreshedW "at-b" "rt-b" "svc-b"
    none 100 100
    (by simp)
    (by
      intro e he
      simp only [List.mem_singleton] at he
      rw [he]
      decide)
    (by
      intro f hf
      simp only [List.mem_singleton] at hf
      rw [hf]
      rfl)
    (by simp)
    rfl
    rfl
    rfl
    (by decide)
    (by decide)

/-- The access entry for audience `svc-a`, backed by its own file. -/
def accessEntryA : AccessEntry :=
  { token := "at-a", expires_at := 50, path_on_disk := "fa.token" }

/-- The refresh entry associated with `at-a`, backed by a different
file. -/
def refreshEntryA : RefreshEntry :=
  { token := "rt-a", associated_access_token := "at-a"
    expires_at := 50, path_on_disk := "fr.token" }

/-- The file backing only the access token `at-a`. -/
def fileA : TokenFile :=
  { path := "fa.token"
    json := some { access_token := some { value := "at-a", claims := some { aud := some "svc-a", exp := 50 } }, refresh_token := none } }

/-- The file backing the refresh token `rt-a` (with its access pair). -/
def fileR : TokenFile :=
  { path := "fr.token"
    json := some { access_token := some { value := "at-a", claims := some { aud := some "svc-a", exp := 50 } }, refresh_token := some { value := "rt-a", claims := some { aud := none, exp := 50 } } } }

/-- Counterexample to claim C4 as stated: with the matched access token
backed by `fa.token` and the consumed refresh token backed by
`fr.token`, a successful `exchange(svc-b, byRefresh)` removes the
matching access entry from memory and deletes `fr.token`, but `fa.token`
— the consumed access token's own backing file — is NOT removed from
disk: the code only calls `os.remove` on the refresh token's
`path_on_disk`. -/
theorem exchange_matched_counterexample :
    exchange_token orphanClientW 0 "fresh2.token" 0 "svc-b" "latest" true
        true { access_tokens := [("svc-a", accessEntryA)], refresh_tokens := [refreshEntryA], disk := [fileA, fileR] } =
      .ok { result := true
            state := { access_tokens := [("svc-b", { token := "at-b", expires_at := 100, path_on_disk := "fresh2.token" })], refresh_tokens := [{ token := "rt-b", associated_access_token := "at-b", expires_at := 100, path_on_disk := "fresh2.token" }], disk := [fileA, { path := "fresh2.token", json := some exchangedW }] }
            calls := [CollabCall.exchangeTokenCall "svc-b" (some "latest") (some "rt-a") (some "at-a")]
            notice := none } ∧
    fileA.json = some { access_token := some { value := "at-a", claims := some { aud := some "svc-a", exp := 50 } }, refresh_token := none } ∧
    accessEntryA.token = "at-a" :=
  ⟨rfl, rfl, rfl⟩

/-- Claim C4, amended: on a live store holding an AccessToken whose value
matches a RefreshToken's `associated_access_token`, a successful
`exchange(B, byRefresh)` calls the collaborator's exchange operation with
that access/refresh pair, removes the consumed RefreshToken and every
matching AccessToken entry (any audience) from memory, deletes the
consumed RefreshToken's backing file from disk (a matching AccessToken's
separate backing file is NOT deleted), and caches the newly returned
bundle so that an entry for audience B exists. -/
theorem exchange_matched (client : AuthnClient) (now : Int)
    (fresh_path : String) (choice : Nat) (service_name version : String)
    (al : List (String × AccessEntry)) (r : RefreshEntry) (A : String)
    (a : AccessEntry) (d : List TokenFile) (av rv : String) (B : String)
    (rAud : Option String) (aexp rexp : Int)
    (hA : ∀ p ∈ al, now ≤ p.2.expires_at)
    (hR : now ≤ r.expires_at)
    (hD : ∀ f ∈ d, sweepFileDelete now f = .ok false)
    (hfind : al.find?
        (fun p => p.2.token == r.associated_access_token) = some (A, a))
    (hexch : client.exchangeResponse service_name (some version)
        (some r.token) (some a.token) =
      .ok { access_token := some { value := av, claims := some { aud := some B, exp := aexp } }, refresh_token := some { value := rv, claims := some { aud := rAud, exp := rexp } } })
    (hfile : d.any (fun f => f.path == r.path_on_disk) = true)
    (haexp : now ≤ aexp) (hrexp : now ≤ rexp) :
    exchange_token client now fresh_path choice service_name version
        true true { access_tokens := al, refresh_tokens := [r], disk := d } =
      .ok { result := true
            state := { access_tokens := dictInsert (al.filter (fun p => p.2.token != r.associated_access_token)) B { token := av, expires_at := aexp, path_on_disk := fresh_path }, refresh_tokens := [{ token := rv, associated_access_token := av, expires_at := rexp, path_on_disk := fresh_path }], disk := d.filter (fun f => f.path != r.path_on_disk) ++ [{ path := fresh_path, json := some { access_token := some { value := av, claims := some { aud := some B, exp := aexp } }, refresh_token := some { value := rv, claims := some { aud := rAud, exp := rexp } } } }] }
            calls := [CollabCall.exchangeTokenCall service_name (some version) (some r.token) (some a.token)]
            notice := none } := by
  have hsweep : sweep now { access_tokens := al, refresh_tokens := [r], disk := d } = .ok { access_tokens := al, refresh_tokens := [r], disk := d } :=
    sweep_noop now _ hA
      (by
        intro e he
        simp only [List.mem_singleton] at he
        rw [he]
        exact hR)
      hD
  have hfm : findMatchingPair [r] 0 al = some (0, r, A, a) := by
    simp only [findMatchingPair, hfind]
  have hbody : exchangeTokenBody client service_name version true choice
      { access_tokens := al, refresh_tokens := [r], disk := d } =
      .ok (some { access_token := some { value := av, claims := some { aud := some B, exp := aexp } }, refresh_token := some { value := rv, claims := some { aud := rAud, exp := rexp } } },
        { access_tokens := al.filter (fun p => p.2.token != r.associated_access_token), refresh_tokens := [], disk := d.filter (fun f => f.path != r.path_on_disk) },
        [CollabCall.exchangeTokenCall service_name (some version) (some r.token) (some a.token)],
        none) := by
    simp [exchangeTokenBody, hfm, hexch, osRemove, hfile]
  have hadd : addTokensToInternalCache
      { access_tokens := al.filter (fun p => p.2.token != r.associated_access_token), refresh_tokens := [], disk := d.filter (fun f => f.path != r.path_on_disk) ++ [{ path := fresh_path, json := some { access_token := some { value := av, claims := some { aud := some B, exp := aexp } }, refresh_token := some { value := rv, claims := some { aud := rAud, exp := rexp } } } }] }
      { access_token := some { value := av, claims := some { aud := some B, exp := aexp } }, refresh_token := some { value := rv, claims := some { aud := rAud, exp := rexp } } }
      (some fresh_path) =
      .ok { access_tokens := dictInsert (al.filter (fun p => p.2.token != r.associated_access_token)) B { token := av, expires_at := aexp, path_on_disk := fresh_path }, refresh_tokens := [{ token := rv, associated_access_token := av, expires_at := rexp, path_on_disk := fresh_path }], disk := d.filter (fun f => f.path != r.path_on_disk) ++ [{ path := fresh_path, json := some { access_token := some { value := av, claims := some { aud := some B, exp := aexp } }, refresh_token := some { value := rv, claims := some { aud := rAud, exp := rexp } } } }] } := by
    simp [addTokensToInternalCache]
  have hfin : sweep now
      { access_tokens := dictInsert (al.filter (fun p => p.2.token != r.associated_access_token)) B { token := av, expires_at := aexp, path_on_disk := fresh_path }, refresh_tokens := [{ token := rv, associated_access_token := av, expires_at := rexp, path_on_disk := fresh_path }], disk := d.filter (fun f => f.path != r.path_on_disk) ++ [{ path := fresh_path, json := some { access_token := some { value := av, claims := some { aud := some B, exp := aexp } }, refresh_token := some { value := rv, claims := some { aud := rAud, exp := rexp } } } }] } =
      .ok { access_tokens := dictInsert (al.filter (fun p => p.2.token != r.associated_access_token)) B { token := av, expires_at := aexp, path_on_disk := fresh_path }, refresh_tokens := [{ token := rv, associated_access_token := av, expires_at := rexp, path_on_disk := fresh_path }], disk := d.filter (fun f => f.path != r.path_on_disk) ++ [{ path := fresh_path, json := some { access_token := some { value := av, claims := some { aud := some B, exp := aexp } }, refresh_token := some { value := rv, claims := some { aud := rAud, exp := rexp } } } }] } := by
    apply sweep_noop
    · intro p hp
      rcases mem_dictInsert _ _ _ p hp with h | h
      · exact hA p (List.mem_filter.mp h).1
      · rw [h]
        exact haexp
    · intro e he
      simp only [List.mem_singleton] at he
      rw [he]
      exact hrexp
    · intro f hf
      rcases List.mem_append.mp hf with h | h
      · exact hD f (List.mem_filter.mp h).1
      · simp only [List.mem_singleton] at h
        rw [h]
        exact sweepFileDelete_live_bundle now fresh_path av rv (some B)
          rAud aexp rexp haexp hrexp
  simp [exchange_token, hsweep, hbody, saveTokensToDisk, hadd, hfin]

/-- Witness for the amended C4 at the concrete two-file store of the
counterexample. -/
theorem exchange_matched_witness :
    exchange_token orphanClientW 0 "fresh2.token" 0 "svc-b" "latest" true
        true { access_tokens := [("svc-a", accessEntryA)], refresh_tokens := [refreshEntryA], disk := [fileA, fileR] } =
      .ok { result := true
            state := { access_tokens := dictInsert ([("svc-a", accessEntryA)].filter (fun p => p.2.token != refreshEntryA.associated_access_token)) "svc-b" { token := "at-b", expires_at := 100, path_on_disk := "fresh2.token" }, refresh_tokens := [{ token := "rt-b", associated_access_token := "at-b", expires_at := 100, path_on_disk := "fresh2.token" }], disk := [fileA, fileR].filter (fun f => f.path != refreshEntryA.path_on_disk) ++ [{ path := "fresh2.token", json := some { access_token := some { value := "at-b", claims := some { aud := some "svc-b", exp := 100 } }, refresh_token := some { value := "rt-b", claims := some { aud := none, exp := 100 } } } }] }
            calls := [CollabCall.exchangeTokenCall "svc-b" (some "latest") (some "rt-a") (some "at-a")]
            notice := none } :=
  exchange_matched orphanClientW 0 "fresh2.token" 0 "svc-b" "latest"
    [("svc-a", accessEntryA)] refreshEntryA "svc-a" accessEntryA
    [fileA, fileR] "at-b" "rt-b" "svc-b" none 100 100
    (by
      intro p hp
      simp only [List.mem_singleton] at hp
      rw [hp]
      decide)
    (by decide)
    (by
      intro f hf
      simp only [List.mem_cons, List.mem_singleton] at hf
      rcases hf with h | h | h
      · rw [h]; rfl
      · rw [h]; rfl
      · cases h)
    rfl
    rfl
    rfl
    (by decide)
    (by decide)

/-! ## Claim C7: device-flow polling exhaustion -/

/-- Any outcome of the sweep (normal or raising) only ever shrinks the
in-memory token caches. -/
theorem sweep_subset (now : Int) (s : OIDCState) :
    (∀ s', sweep now s = .ok s' →
      s'.access_tokens ⊆ s.access_tokens ∧
        s'.refresh_tokens ⊆ s.refresh_tokens) ∧
    (∀ s', sweep now s = .error s' →
      s'.access_tokens ⊆ s.access_tokens ∧
        s'.refresh_tokens ⊆ s.refresh_tokens) := by
  constructor
  · intro s' h
    unfold sweep at h
    obtain ⟨ha, hr⟩ :=
      (sweepDiskAux_memory now (sweepMemory now s).disk
        (sweepMemory now s)).1 s' h
    constructor
    · rw [ha]
      exact fun a ha' => (List.mem_filter.mp ha').1
    · rw [hr]
      exact fun a ha' => (List.mem_filter.mp ha').1
  · intro s' h
    unfold sweep at h
    obtain ⟨ha, hr⟩ :=
      (sweepDiskAux_memory now (sweepMemory now s).disk
        (sweepMemory now s)).2 s' h
    constructor
    · rw [ha]
      exact fun a ha' => (List.mem_filter.mp ha').1
    · rw [hr]
      exact fun a ha' => (List.mem_filter.mp ha').1

/-- A poll attempt whose token call raises always raises out of
`request_token`, with a state no larger than the input (the guard sweep
may have removed expired entries; nothing is added). -/
theorem request_token_raise (now : Int) (store : Bool) (fresh : String)
    (s : OIDCState) :
    ∃ sErr, request_token now (Except.error ()) store fresh s = .error sErr ∧
      sErr.access_tokens ⊆ s.access_tokens ∧
      sErr.refresh_tokens ⊆ s.refresh_tokens := by
  unfold request_token
  cases hs : sweep now s with
  | error sE =>
      exact ⟨sE, rfl, (sweep_subset now s).2 sE hs⟩
  | ok s1 =>
      exact ⟨s1, rfl, (sweep_subset now s).1 s1 hs⟩

/-- When every remaining attempt's token call raises, the poll loop uses
up all attempts, ends unsuccessfully, and adds nothing to the caches. -/
theorem pollForToken_all_fail (resps : Nat → Except Unit TokenResponse)
    (nows : Nat → Int) (freshes : Nat → String) (store : Bool) :
    ∀ (remaining k : Nat) (s : OIDCState),
      (∀ n, k ≤ n → n < k + remaining → resps n = Except.error ()) →
      (pollForToken resps nows freshes store k remaining s).1 =
          k + remaining ∧
        (pollForToken resps nows freshes store k remaining s).2.1 = false ∧
        (pollForToken resps nows freshes store k remaining s).2.2.access_tokens
          ⊆ s.access_tokens ∧
        (pollForToken resps nows freshes store k remaining s).2.2.refresh_tokens
          ⊆ s.refresh_tokens := by
  intro remaining
  induction remaining with
  | zero =>
      intro k s _
      exact ⟨rfl, rfl, fun a ha => ha, fun a ha => ha⟩
  | succ m ih =>
      intro k s h
      have hk : resps k = Except.error () := h k (Nat.le_refl k) (by omega)
      obtain ⟨sErr, hreq, haSub, hrSub⟩ :=
        request_token_raise (nows k) store (freshes k) s
      have hreq' : request_token (nows k) (resps k) store (freshes k) s =
          .error sErr := by
        rw [hk]
        exact hreq
      simp only [pollForToken, hreq']
      have hrec := ih (k + 1) sErr
        (fun n hn1 hn2 => h n (by omega) (by omega))
      refine ⟨by rw [hrec.1]; omega, hrec.2.1, ?_, ?_⟩
      · exact fun a ha => haSub (hrec.2.2.1 ha)
      · exact fun a ha => hrSub (hrec.2.2.2 ha)

/-- Claim C7: a device-flow poll with `maxAttempts = 3` in which every
attempt's token call raises makes exactly 3 token-retrieval attempts,
ends in the `Expired` state (printing the failure notice), and caches no
token — each failed attempt is swallowed and retried, and only attempt
exhaustion is terminal. -/
theorem device_flow_exhaustion (resps : Nat → Except Unit TokenResponse)
    (nows : Nat → Int) (freshes : Nat → String) (store : Bool)
    (s : OIDCState) (h : ∀ n, n < 3 → resps n = Except.error ()) :
    (pollForToken resps nows freshes store 0 3 s).1 = 3 ∧
    deviceFlowEndState
        (pollForToken resps nows freshes store 0 3 s).2.1 = .Expired ∧
    (pollForToken resps nows freshes store 0 3 s).2.2.access_tokens
      ⊆ s.access_tokens ∧
    (pollForToken resps nows freshes store 0 3 s).2.2.refresh_tokens
      ⊆ s.refresh_tokens := by
  obtain ⟨h1, h2, h3, h4⟩ :=
    pollForToken_all_fail resps nows freshes store 3 0 s
      (fun n _ hn => h n (by omega))
  refine ⟨h1, ?_, h3, h4⟩
  rw [h2]
  rfl

/-- The always-raising token endpoint. -/
def failResps : Nat → Except Unit TokenResponse := fun _ => Except.error ()

/-- Witness for C7 at the empty store with an always-failing endpoint. -/
theorem device_flow_exhaustion_witness :
    (pollForToken failResps (fun _ => 0) (fun _ => "poll.token") true
        0 3 emptyState).1 = 3 ∧
    deviceFlowEndState
        (pollForToken failResps (fun _ => 0) (fun _ => "poll.token") true
          0 3 emptyState).2.1 = .Expired ∧
    (pollForToken failResps (fun _ => 0) (fun _ => "poll.token") true
        0 3 emptyState).2.2.access_tokens ⊆ emptyState.access_tokens ∧
    (pollForToken failResps (fun _ => 0) (fun _ => "poll.token") true
        0 3 emptyState).2.2.refresh_tokens ⊆ emptyState.refresh_tokens :=
  device_flow_exhaustion failResps (fun _ => 0) (fun _ => "poll.token")
    true emptyState (fun _ _ => rfl)
